import Mathlib

/-!
Verification development for the AGIS-style astrometric solver of GaiaLab
(`GaiaLab/scan/analytic_scanner/agis.py`).

The solver state and the operations of class `Agis` are embedded shallowly
over `ℚ` (exact rationals standing for the Python floats).  Helper modules
that are not part of the repository snapshot (`agis_functions`,
`frame_transformations`, `satellite`, `source`, `helpers`, scipy/numpy)
are modelled: pure library calls (`np.linalg.solve`, quaternion algebra)
are modelled mathematically, and opaque domain helpers are carried as
fields of an `Ext` environment record, so every theorem quantifies over
their possible behaviours unless a claim pins them down.
-/

namespace GaiaLab

open Matrix

/-- Observation times, angles and parameters are rationals (exact model of
the Python floats). -/
abbrev Time := ℚ

/-! ### Quaternions

Modelled from the spec: the `Quaternion` class used by `agis.py` is not in
the repository snapshot.  The spec (glossary and section 8) describes it as
a quaternion with the usual Hamilton product, used to rotate vectors, and
with a `unit` renormalisation.  Since the Euclidean norm of a rational
quaternion need not be rational, `unit` is modelled by division by a
supplied scalar `n`; every theorem that uses it assumes `n^2` equals the
squared norm, i.e. that the library square root is exact at that input. -/

structure Quaternion where
  w : ℚ
  x : ℚ
  y : ℚ
  z : ℚ
deriving DecidableEq

namespace Quaternion

/-- Squared Euclidean norm of a quaternion. -/
def normSq (q : Quaternion) : ℚ := q.w ^ 2 + q.x ^ 2 + q.y ^ 2 + q.z ^ 2

/-- Hamilton product. -/
def qmul (p q : Quaternion) : Quaternion :=
  ⟨p.w * q.w - p.x * q.x - p.y * q.y - p.z * q.z,
   p.w * q.x + p.x * q.w + p.y * q.z - p.z * q.y,
   p.w * q.y - p.x * q.z + p.y * q.w + p.z * q.x,
   p.w * q.z + p.x * q.y - p.y * q.x + p.z * q.w⟩

/-- Quaternion conjugate. -/
def conj (q : Quaternion) : Quaternion := ⟨q.w, -q.x, -q.y, -q.z⟩

/-- Scalar multiple of a quaternion. -/
def qsmul (a : ℚ) (q : Quaternion) : Quaternion := ⟨a * q.w, a * q.x, a * q.y, a * q.z⟩

/-- Modelled from the spec: `Quaternion.unit` divides the quaternion by its
Euclidean norm; the norm is supplied as the scalar `n` (see the note on
`Quaternion`). -/
def unitWith (q : Quaternion) (n : ℚ) : Quaternion := qsmul n⁻¹ q

/-- A pure (vector) quaternion built from a 3-vector. -/
def fromVector (v : Fin 3 → ℚ) : Quaternion := ⟨0, v 0, v 1, v 2⟩

/-- Modelled from the spec: rotating a vector `v` by a (not necessarily
unit) quaternion `q` is the conjugation `q · v · q̄` divided by the squared
norm; for a unit quaternion this is the standard rotation action the spec
describes. -/
def rotate (q : Quaternion) (v : Fin 3 → ℚ) : Quaternion :=
  qsmul (normSq q)⁻¹ (qmul (qmul q (fromVector v)) (conj q))

end Quaternion

/-! ### Data model -/

/-- `Calc_source`: the per-star mutable record (`agis.py`, class
`Calc_source`).  `s_params` are the five astrometric parameters
(alpha, delta, parallax, mu_alpha, mu_delta). -/
structure Calc_source where
  name : String
  obs_times : List Time
  s_params : Fin 5 → ℚ
  mu_radial : ℚ
  s_old : List (Fin 5 → ℚ)
  errors : List ℚ
  mean_color : ℚ

instance : Inhabited Calc_source :=
  ⟨⟨"", [], fun _ => 0, 0, [], [], 0⟩⟩

/-- The three recognised values of `Agis.updating` (the Python field is a
string; the string dispatch with its `else: raise` branch is modelled as a
closed enumeration of the recognised values). -/
inductive Updating where
  | source
  | scannedSource
  | attitude
deriving DecidableEq

/-- State of an `Agis` solver instance: the constructor arguments and the
mutable fields of `agis.py`.  `att_coeffs` is the 4×N spline-coefficient
matrix (row = quaternion component, column = knot span), stored as a total
function of which only indices `j < 4`, `n < N` are meaningful, exactly the
shape of the numpy array.  Reference (real) sources are modelled by their
five astrometric parameters. -/
structure Agis where
  calc_sources : List Calc_source
  real_sources : List (Fin 5 → ℚ)
  updating : Updating
  verbose : Bool
  double_telescope : Bool
  attitude_regularisation_factor : ℚ
  degree_error : ℚ
  k : ℕ
  iter_counter : ℕ
  N : ℕ
  att_coeffs : ℕ → ℕ → ℚ
  att_knots : ℕ → ℚ
  attitude_splines : Fin 4 → Time → ℚ

/-- Spline order `M = k + 1` (`agis.py`, `self.M = self.k + 1`). -/
def Agis.M (s : Agis) : ℕ := s.k + 1

/-- The environment of collaborator functions that `agis.py` imports from
modules absent from the repository snapshot (`agis_functions`,
`frame_transformations`, `satellite`, `source`, scipy).  Each field is an
opaque function; theorems hold for every instantiation unless stated. -/
structure Ext where
  /-- Modelled from the spec: `observed_field_angles` /
  `calculated_field_angles` (missing module `agis_functions`) both compute
  the along/across-scan field-angle pair of a source — given by its five
  astrometric parameters — under an attitude at a time (the last argument is
  the `double_telescope` flag).  Spec section 4.1 describes the two sides as
  the same field-angle computation applied to the reference source and to
  the calculated source, and section 8 requires the residual to vanish when
  the parameters coincide, so a single function models both. -/
  fieldAngles : (Fin 5 → ℚ) → Quaternion → Time → Bool → ℚ × ℚ
  /-- `sat.func_attitude`: the ground-truth attitude (missing module
  `satellite`). -/
  funcAttitude : Time → Quaternion
  /-- Modelled from the spec: `attitude_from_alpha_delta` (missing module
  `agis_functions`) — the source-specific analytic attitude used by the
  source-update mode; arguments: reference-source parameters, time,
  deviation. -/
  attitudeFromAlphaDelta : (Fin 5 → ℚ) → Time → ℚ → Quaternion
  /-- Modelled from the spec: the residual Jacobian `dR_ds` (Ref. eq. 71,
  `agis.py` lines 305–332) is built from helpers missing from the snapshot
  (`compute_mnu`, `helpers.sec`, `calculated_field_angles`, frame
  rotations); it is modelled as an opaque function of the star's parameters,
  its observation-time list and its index, giving the row of derivatives
  (one per observation) with respect to the 5 astrometric parameters. -/
  dRds : (Fin 5 → ℚ) → List Time → ℕ → ℕ → Fin 5 → ℚ
  /-- Modelled from the spec: the library square root used by
  `Quaternion.unit`; rational stand-in for `np.sqrt`. -/
  sqrtQ : ℚ → ℚ
  /-- Modelled from the spec: `compute_dR_dq` (missing module
  `agis_functions`) — gradient of the residual with respect to the four
  quaternion components, as a function of the owning source's parameters,
  the (unnormalised) attitude and the time. -/
  dR_dq : (Fin 5 → ℚ) → Quaternion → Time → Fin 4 → ℚ
  /-- Modelled from the spec: the B-spline basis value `B_n(t)` (the
  `att_bases` table built by `get_basis_Bsplines`, missing module
  `agis_functions`), indexed by span and time. -/
  basis : ℕ → Time → ℚ
  /-- Modelled from the spec: `compute_coeff_basis_sum` (missing module
  `agis_functions`) — the windowed coefficient–basis sum at a time, as a
  function of the coefficient matrix and the time. -/
  coeffBasisSum : (ℕ → ℕ → ℚ) → Time → Fin 4 → ℚ
  /-- Modelled from the spec: `compute_attitude_deviation` (missing module
  `agis_functions`) — the attitude-smoothness deviation `D` at a time,
  from the coefficient–basis sum. -/
  attitudeDeviation : (Fin 4 → ℚ) → ℚ
  /-- Modelled from the spec: `compute_DL_da_i` (missing module
  `agis_functions`) — the gradient `∂D/∂a_n` of the deviation with respect
  to coefficient block `n`, from the coefficient–basis sum and the time. -/
  dDLda : (Fin 4 → ℚ) → Time → ℕ → Fin 4 → ℚ
  /-- `error_between_func_attitudes` (missing module `agis_functions`):
  the attitude-fit diagnostic printed by `iterate` in attitude mode. -/
  errBetween : List Time → (Time → Quaternion) → (Time → Quaternion) → ℚ

/-! ### Observation-time bookkeeping (`Agis.__init__`) -/

/-- Inner loop of the `time_dict` construction: `for t in
calc_source.obs_times: self.time_dict[t] = source_index`. -/
def timeDictInsert (d : Time → Option ℕ) (idx : ℕ) (ts : List Time) : Time → Option ℕ :=
  ts.foldl (fun d' t => Function.update d' t (some idx)) d

/-- Outer loop of the `time_dict` construction over the enumerated
calculated sources. -/
def timeDictAux : ℕ → List Calc_source → (Time → Option ℕ) → (Time → Option ℕ)
  | _, [], d => d
  | idx, cs :: rest, d => timeDictAux (idx + 1) rest (timeDictInsert d idx cs.obs_times)

/-- `self.time_dict`: maps an observation time to the index of the source
that (last) claims it (`agis.py` lines 95–101). -/
def time_dict (sources : List Calc_source) : Time → Option ℕ :=
  timeDictAux 0 sources (fun _ => none)

/-- `self.all_obs_times`: the merged, sorted list of all observation times
(`np.sort` of the concatenation). -/
def all_obs_times (s : Agis) : List Time :=
  (s.calc_sources.flatMap (fun cs => cs.obs_times)).insertionSort (· ≤ ·)

/-- `Agis.get_source_index` (`agis.py` lines 443–448): dictionary lookup,
raising `ValueError` when the time is unknown. -/
def get_source_index (s : Agis) (t : Time) : Except String ℕ :=
  match time_dict s.calc_sources t with
  | some i => Except.ok i
  | none => Except.error "time not in time_dict"

/-- The source index the attitude-block assembly loops use at a time
drawn from `all_obs_times` (a successful `get_source_index` lookup; the
default is never reached for such times). -/
def source_index_at (s : Agis) (t : Time) : ℕ :=
  (time_dict s.calc_sources t).getD 0

/-! ### Attitude reconstruction -/

/-- `Agis.get_attitude` (`agis.py` lines 362–370): evaluate the four
component splines and optionally renormalise to a unit quaternion. -/
def get_attitude (env : Ext) (s : Agis) (t : Time) (unit : Bool := true) : Quaternion :=
  let a : Quaternion :=
    ⟨s.attitude_splines 0 t, s.attitude_splines 1 t, s.attitude_splines 2 t, s.attitude_splines 3 t⟩
  if unit then Quaternion.unitWith a (env.sqrtQ a.normSq) else a

/-- `Agis.get_attitude_for_source` (`agis.py` lines 350–357): the deviation
branch `source_index < 0` is unreachable for the natural-number indices the
solver uses, so the deviation passed on is 0. -/
def get_attitude_for_source (env : Ext) (s : Agis) (source_index : ℕ) (t : Time) : Quaternion :=
  env.attitudeFromAlphaDelta (s.real_sources.getD source_index default) t 0

/-! ### Residual engine -/

/-- The `attitude` variable of `Agis.get_field_angles` (used for the
calculated angles): mode-dependent attitude selection. -/
def attitude_in_effect (env : Ext) (s : Agis) (source_index : ℕ) (t : Time) : Quaternion :=
  match s.updating with
  | Updating.source => get_attitude_for_source env s source_index t
  | Updating.scannedSource => env.funcAttitude t
  | Updating.attitude => get_attitude env s t true

/-- The `attitude_gaia` variable of `Agis.get_field_angles` (used for the
observed angles): it coincides with `attitude_in_effect` except in attitude
mode, where the ground truth is used. -/
def attitude_gaia (env : Ext) (s : Agis) (source_index : ℕ) (t : Time) : Quaternion :=
  match s.updating with
  | Updating.source => get_attitude_for_source env s source_index t
  | Updating.scannedSource => env.funcAttitude t
  | Updating.attitude => env.funcAttitude t

/-- `Agis.get_field_angles` (`agis.py` lines 134–155): returns the pair
(observed angles, calculated angles), with the attitude selection dependent
on the updating mode. -/
def get_field_angles (env : Ext) (s : Agis) (source_index : ℕ) (t : Time) :
    (ℚ × ℚ) × (ℚ × ℚ) :=
  let obs := env.fieldAngles (s.real_sources.getD source_index default)
      (attitude_gaia env s source_index t) t s.double_telescope
  let calcAngles := env.fieldAngles (s.calc_sources.getD source_index default).s_params
      (attitude_in_effect env s source_index t) t s.double_telescope
  (obs, calcAngles)

/-- `Agis.deviate_field_angles_color_aberration` (`agis.py` lines 157–165):
the deviation lines are commented out in the source, so the angles are
returned unchanged. -/
def deviate_field_angles_color_aberration (_s : Agis) (_source_index : ℕ) (_t : Time)
    (angles : (ℚ × ℚ) × (ℚ × ℚ)) : (ℚ × ℚ) × (ℚ × ℚ) := angles

/-- `Agis.compute_R_L` (`agis.py` lines 167–182): the scalar residual
`R = (eta_obs - eta_calc) + (zeta_obs - zeta_calc)`. -/
def compute_R_L (env : Ext) (s : Agis) (source_index : ℕ) (t : Time) : ℚ :=
  let angles := deviate_field_angles_color_aberration s source_index t
      (get_field_angles env s source_index t)
  let R_eta := angles.1.1 - angles.2.1
  let R_zeta := angles.1.2 - angles.2.2
  R_eta + R_zeta

/-- `Agis.error_function` (`agis.py` lines 120–132): the error functional
Q, the sum over all (star, time) pairs of the squared residual. -/
def error_function (env : Ext) (s : Agis) : ℚ :=
  (s.calc_sources.enum.map (fun p =>
      (p.2.obs_times.map (fun t => compute_R_L env s p.1 t ^ 2)).sum)).sum

/-! ### The linear solver

`np.linalg.solve` is numpy, modelled mathematically: it raises
`LinAlgError("Singular matrix")` exactly when LU factorisation meets a zero
pivot — in exact arithmetic, when the matrix is singular — and otherwise
returns the unique solution, here written with the adjugate so that the
definition is executable. -/

/-- An executable determinant over `ℚ` (Laplace expansion along the first
row); proved equal to `Matrix.det` below. -/
def detQ : {n : ℕ} → Matrix (Fin n) (Fin n) ℚ → ℚ
  | 0, _ => 1
  | n + 1, A =>
      ((List.finRange (n + 1)).map (fun (j : Fin (n + 1)) =>
        (-1) ^ (j : ℕ) * A 0 j * detQ (Matrix.of fun r c => A r.succ (Fin.succAbove j c)))).sum

/-- Exact-arithmetic model of `np.linalg.solve`: fail on a singular matrix,
otherwise return the unique solution (by Cramer's rule, executable). -/
def npSolve {n : ℕ} (A : Matrix (Fin n) (Fin n) ℚ) (b : Fin n → ℚ) :
    Except String (Fin n → ℚ) :=
  if detQ A = 0 then Except.error "Singular matrix"
  else Except.ok (fun i => (detQ A)⁻¹ * detQ (A.updateColumn i b))

/-! ### Source-block solver -/

/-- The Jacobian-side matrix `A = -dR_ds` of `Agis.block_S_error_rate_matrix`
(`agis.py` lines 334–337), for one star's parameters and observation
times: one row per observation time, one column per astrometric
parameter. -/
def source_A (env : Ext) (params : Fin 5 → ℚ) (times : List Time) (source_index : ℕ) :
    Matrix (Fin times.length) (Fin 5) ℚ :=
  Matrix.of fun r c => -(env.dRds params times source_index r.1 c)

/-- The weight matrix `W = np.eye(len(obs_times))` of
`Agis.update_block_S_i`. -/
def source_W (times : List Time) : Matrix (Fin times.length) (Fin times.length) ℚ := 1

/-- `Agis.compute_h` (`agis.py` lines 339–348): the residual vector at the
star's observation times. -/
def compute_h (env : Ext) (s : Agis) (source_index : ℕ) :
    Fin (s.calc_sources.getD source_index default).obs_times.length → ℚ :=
  fun r => compute_R_L env s source_index
    ((s.calc_sources.getD source_index default).obs_times.get r)

/-- The 5×5 normal-equations matrix `LHS = Aᵀ W A` of
`Agis.update_block_S_i`, as a function of the star's parameters and
observation times alone. -/
def source_LHS (env : Ext) (params : Fin 5 → ℚ) (times : List Time) (source_index : ℕ) :
    Matrix (Fin 5) (Fin 5) ℚ :=
  (source_A env params times source_index)ᵀ * source_W times * source_A env params times source_index

/-- The right-hand side `RHS = Aᵀ W h` of `Agis.update_block_S_i`. -/
def source_RHS (env : Ext) (s : Agis) (source_index : ℕ) : Fin 5 → ℚ :=
  ((source_A env (s.calc_sources.getD source_index default).s_params
      (s.calc_sources.getD source_index default).obs_times source_index)ᵀ
      * source_W (s.calc_sources.getD source_index default).obs_times)
    *ᵥ compute_h env s source_index

/-- Replace star `i`'s parameter vector, leaving every other field and
every other star unchanged (the in-place `s_params[:] += d` target). -/
def set_star_params (s : Agis) (i : ℕ) (q : Fin 5 → ℚ) : Agis :=
  let cs := s.calc_sources.getD i default
  {s with calc_sources := s.calc_sources.set i {cs with s_params := q}}

/-- `Agis.update_block_S_i` (`agis.py` lines 214–228): solve the weighted
normal equations `Aᵀ W A · d = Aᵀ W h` and add the increment `d` in place
to the star's parameter vector. -/
def update_block_S_i (env : Ext) (s : Agis) (source_index : ℕ) : Except String Agis :=
  match npSolve (source_LHS env (s.calc_sources.getD source_index default).s_params
        (s.calc_sources.getD source_index default).obs_times source_index)
      (source_RHS env s source_index) with
  | Except.error e => Except.error e
  | Except.ok d =>
      Except.ok (set_star_params s source_index
        (fun p => (s.calc_sources.getD source_index default).s_params p + d p))

/-- The per-star history appends of `Agis.update_S_block` (`agis.py` lines
209–211): `s_old.append(params.copy()); errors.append(error_function())`. -/
def append_histories (env : Ext) (s : Agis) (source_index : ℕ) : Agis :=
  let cs := s.calc_sources.getD source_index default
  let cs2 : Calc_source :=
    {cs with s_old := cs.s_old ++ [cs.s_params], errors := cs.errors ++ [error_function env s]}
  {s with calc_sources := s.calc_sources.set source_index cs2}

/-- One iteration of the `Agis.update_S_block` loop body for star `i`. -/
def update_S_block_step (env : Ext) (s : Agis) (source_index : ℕ) : Except String Agis :=
  update_block_S_i env (append_histories env s source_index) source_index

/-- The `Agis.update_S_block` loop over a list of star indices; an uncaught
solve failure aborts the remaining stars, as the Python exception does. -/
def update_S_block_aux (env : Ext) : Agis → List ℕ → Except String Agis
  | s, [] => Except.ok s
  | s, i :: rest =>
      match update_S_block_step env s i with
      | Except.error e => Except.error e
      | Except.ok s2 => update_S_block_aux env s2 rest

/-- `Agis.update_S_block` (`agis.py` lines 207–212). -/
def update_S_block (env : Ext) (s : Agis) : Except String Agis :=
  update_S_block_aux env s (List.range s.calc_sources.length)

/-! ### Attitude-block solver -/

/-- Whether time `t` lies in the basis support of span `n` (the knot
interval covered by `get_times_in_knot_interval`); modelled from the spec:
the helper is in the missing module `agis_functions`, and the spec describes
its result as the observation times lying in the span's basis support
`[knot n, knot (n+M))`. -/
def in_knot_support (s : Agis) (n : ℕ) (t : Time) : Bool :=
  decide (s.att_knots n ≤ t) && decide (t < s.att_knots (n + s.M))

/-- `get_times_in_knot_interval(self.all_obs_times, self.att_knots, n, M)`:
the observation times in span `n`'s basis support. -/
def time_support (s : Agis) (n : ℕ) : List Time :=
  (all_obs_times s).filter (in_knot_support s n)

/-- The sorted intersection of the supports of spans `m` and `n`
(`compute_Naa_mn`, `agis.py` line 480); as both support lists are
subsequences of the sorted `all_obs_times`, it is the filter of the base
list by both support predicates. -/
def mn_time_support (s : Agis) (m n : ℕ) : List Time :=
  (all_obs_times s).filter (fun t => in_knot_support s m t && in_knot_support s n t)

/-- The residual gradient `dR_dq` at a time, evaluated as the assembly
loops do: owning source via the time dictionary, attitude reconstructed
without renormalisation (`unit=False`). -/
def dRdq_at (env : Ext) (s : Agis) (t : Time) : Fin 4 → ℚ :=
  env.dR_dq (s.calc_sources.getD (source_index_at s t) default).s_params
    (get_attitude env s t false) t

/-- Modelled from the spec: `dR_da_i` (missing module `agis_functions`) —
the gradient with respect to coefficient block `i` is the quaternion-
gradient times the basis-function value (spec section 4.3). -/
def dR_da_i (dRdq : Fin 4 → ℚ) (bval : ℚ) : Fin 4 → ℚ := fun j => dRdq j * bval

/-- The 4×4 outer product `u @ v.T` of two column vectors. -/
def outer (u v : Fin 4 → ℚ) : Matrix (Fin 4) (Fin 4) ℚ :=
  Matrix.of fun j j' => u j * v j'

/-- `Agis.compute_Naa_mn` (`agis.py` lines 475–513): accumulate, over the
intersection of the two spans' supports, the regularisation term and the
outer product of the residual gradients with respect to blocks `n` and
`m`. -/
def compute_Naa_mn (env : Ext) (s : Agis) (m n : ℕ) : Matrix (Fin 4) (Fin 4) ℚ :=
  (mn_time_support s m n).foldl (fun acc t =>
    let cbs := env.coeffBasisSum s.att_coeffs t
    let dDL_da_n := env.dDLda cbs t n
    let dDL_da_m := env.dDLda cbs t m
    let reg := s.attitude_regularisation_factor ^ 2 • outer dDL_da_n dDL_da_m
    let dR_da_m := dR_da_i (dRdq_at env s t) (env.basis m t)
    let dR_da_n := dR_da_i (dRdq_at env s t) (env.basis n t)
    acc + (reg + outer dR_da_n dR_da_m)) 0

/-- `Agis.compute_attitude_LHS` (`agis.py` lines 413–422): the
`(4N × 4N)` normal-equations matrix, whose `(n, m)` 4×4 block is
`compute_Naa_mn m n`. -/
def compute_attitude_LHS (env : Ext) (s : Agis) :
    Matrix (Fin (s.N * 4)) (Fin (s.N * 4)) ℚ :=
  Matrix.of fun p q =>
    compute_Naa_mn env s (q.1 / 4) (p.1 / 4)
      ⟨p.1 % 4, Nat.mod_lt _ (by norm_num)⟩ ⟨q.1 % 4, Nat.mod_lt _ (by norm_num)⟩

/-- `Agis.compute_attitude_RHS_n` (`agis.py` lines 450–473): minus the
accumulated `dR_da_n · R_L + λ² · dDL_da_n · D_L` over span `n`'s time
support. -/
def compute_attitude_RHS_n (env : Ext) (s : Agis) (n : ℕ) : Fin 4 → ℚ :=
  -((time_support s n).foldl (fun acc t =>
      let cbs := env.coeffBasisSum s.att_coeffs t
      let D_L := env.attitudeDeviation cbs
      let dDL_da_n := env.dDLda cbs t n
      let regularisation_part : Fin 4 → ℚ :=
        fun j => s.attitude_regularisation_factor ^ 2 * dDL_da_n j * D_L
      let dR_da_n := dR_da_i (dRdq_at env s t) (env.basis n t)
      let R_L := compute_R_L env s (source_index_at s t) t
      acc + fun j => dR_da_n j * R_L + regularisation_part j) 0)

/-- `Agis.compute_attitude_RHS` (`agis.py` lines 424–430): the stacked
right-hand side, block `n` holding `compute_attitude_RHS_n n`. -/
def compute_attitude_RHS (env : Ext) (s : Agis) : Fin (s.N * 4) → ℚ :=
  fun p => compute_attitude_RHS_n env s (p.1 / 4) ⟨p.1 % 4, Nat.mod_lt _ (by norm_num)⟩

/-- The relayout loop of `Agis.update_A_block` (`agis.py` lines 393–398).
`c_update = d.reshape((4, N))` is a numpy *view* of the solution vector
`d`, with `c_update[j, i]` aliasing buffer position `j*N + i`; each loop
statement `c_update[j, i] = d[i*4 + j]` therefore reads the buffer at
`i*4 + j` and writes it at `j*N + i`, sequentially mutating the shared
buffer.  The result is the final buffer, from which
`c_update[j, i] = buffer (j*N + i)`. -/
def aliasedReshape (N : ℕ) (buf : ℕ → ℚ) : ℕ → ℚ :=
  (List.range N).foldl (fun f i =>
    let f0 := Function.update f (0 * N + i) (f (i * 4))
    let f1 := Function.update f0 (1 * N + i) (f0 (i * 4 + 1))
    let f2 := Function.update f1 (2 * N + i) (f1 (i * 4 + 2))
    Function.update f2 (3 * N + i) (f2 (i * 4 + 3))) buf

/-- The coefficient update `c_update[j, i]` actually produced by the
relayout loop of `Agis.update_A_block` at solution vector `d`. -/
def c_update_of (N : ℕ) (d : ℕ → ℚ) (j i : ℕ) : ℚ :=
  aliasedReshape N d (j * N + i)

/-- `Agis.actualise_splines` (`agis.py` lines 372–374): rebuild the four
B-splines from the current coefficients; an evaluated scipy
`BSpline(knots, c, k)` is the coefficient–basis sum, modelled with the
environment's basis functions. -/
def actualise_splines (env : Ext) (s : Agis) : Agis :=
  {s with attitude_splines := fun j t =>
    ((List.range s.N).map (fun n => s.att_coeffs j.1 n * env.basis n t)).sum}

/-- `Agis.update_A_block` (`agis.py` lines 380–401): solve the assembled
system, lay the increment out through the (aliased) reshape-and-relayout
loop, add it to the coefficient matrix in place and rebuild the splines. -/
def update_A_block (env : Ext) (s : Agis) : Except String Agis :=
  match npSolve (compute_attitude_LHS env s) (compute_attitude_RHS env s) with
  | Except.error e => Except.error e
  | Except.ok d =>
      let dflat : ℕ → ℚ := fun p => if h : p < s.N * 4 then d ⟨p, h⟩ else 0
      let newCoeffs : ℕ → ℕ → ℚ := fun j i =>
        if j < 4 ∧ i < s.N then s.att_coeffs j i + c_update_of s.N dflat j i
        else s.att_coeffs j i
      Except.ok (actualise_splines env {s with att_coeffs := newCoeffs})

/-- The attitude right-hand side as the specification words it (section
4.3: accumulate `(residual gradient w.r.t. block n) · residual −
λ²·(∂D/∂a_n)·D`, negated): the regularisation term *subtracted* inside the
negated sum.  Stated from the spec's words only, to be compared with
`compute_attitude_RHS_n` above, which follows the source. -/
def claimed_attitude_RHS_n (env : Ext) (s : Agis) (n : ℕ) : Fin 4 → ℚ :=
  -(((time_support s n).map (fun t => fun j : Fin 4 =>
      dR_da_i (dRdq_at env s t) (env.basis n t) j * compute_R_L env s (source_index_at s t) t
        - s.attitude_regularisation_factor ^ 2
          * env.dDLda (env.coeffBasisSum s.att_coeffs t) t n j
          * env.attitudeDeviation (env.coeffBasisSum s.att_coeffs t))).sum)

/-! ### Solver driver -/

/-- The observable events of one `Agis.iterate` run: the per-pass banner
print, the verbose-only error print before the block update, the attitude
diagnostic print, and the error print after the block update. -/
inductive Event where
  | pass (counter : ℕ)
  | errBefore (q : ℚ)
  | attitudeError (q : ℚ)
  | errAfter (q : ℚ)
deriving DecidableEq

/-- Whether an event is the per-pass banner. -/
def Event.isPass : Event → Bool
  | Event.pass _ => true
  | _ => false

/-- Whether an event is the before-pass error record. -/
def Event.isErrBefore : Event → Bool
  | Event.errBefore _ => true
  | _ => false

/-- Whether an event is the after-pass error record. -/
def Event.isErrAfter : Event → Bool
  | Event.errAfter _ => true
  | _ => false

/-- Whether an `Except` result is a success. -/
def exceptOk {α : Type} : Except String α → Bool
  | Except.ok _ => true
  | Except.error _ => false

/-- The mode dispatch of `Agis.iterate`: the single configured block
update. -/
def block_update (env : Ext) (s : Agis) : Except String Agis :=
  match s.updating with
  | Updating.attitude => update_A_block env s
  | _ => update_S_block env s

/-- The attitude-fit diagnostic print emitted by `Agis.iterate` in attitude
mode only. -/
def att_diag_events (env : Ext) (s1 s2 : Agis) : List Event :=
  match s1.updating with
  | Updating.attitude =>
      [Event.attitudeError (env.errBetween (all_obs_times s1) env.funcAttitude
        (fun t => get_attitude env s2 t true))]
  | _ => []

/-- `Agis.iterate` (`agis.py` lines 184–202): perform `num` outer passes of
the configured block update, producing the trace of recorded errors; an
uncaught solve failure aborts the remaining passes. -/
def iterate (env : Ext) : Agis → ℕ → List Event × Except String Agis
  | s, 0 => ([], Except.ok s)
  | s, num + 1 =>
      let s1 : Agis := {s with iter_counter := s.iter_counter + 1}
      let evPass : List Event := [Event.pass s1.iter_counter]
      let evBefore : List Event :=
        if s1.verbose then [Event.errBefore (error_function env s1)] else []
      match block_update env s1 with
      | Except.error e => (evPass ++ evBefore, Except.error e)
      | Except.ok s2 =>
          let evAfter : List Event := [Event.errAfter (error_function env s2)]
          let rest := iterate env s2 num
          (evPass ++ evBefore ++ att_diag_events env s1 s2 ++ evAfter ++ rest.1, rest.2)

/-! ### Concrete instances

Small closed solver configurations used to witness the theorems below and
to exhibit counterexamples.  They instantiate the opaque environment
fields with simple concrete behaviours. -/

/-- A baseline environment instantiation: every opaque collaborator
returns zeros (attitudes: the identity quaternion); the square-root oracle
is exact on the few values the instances need. -/
def env0 : Ext where
  fieldAngles := fun _ _ _ _ => (0, 0)
  funcAttitude := fun _ => ⟨1, 0, 0, 0⟩
  attitudeFromAlphaDelta := fun _ _ _ => ⟨1, 0, 0, 0⟩
  dRds := fun _ _ _ _ _ => 0
  sqrtQ := fun q => if q = 25 then 5 else if q = 4 then 2 else if q = 1 then 1 else 0
  dR_dq := fun _ _ _ _ => 0
  basis := fun _ _ => 0
  coeffBasisSum := fun _ _ _ => 0
  attitudeDeviation := fun _ => 0
  dDLda := fun _ _ _ _ => 0
  errBetween := fun _ _ _ => 0

/-- A baseline solver state: empty source lists, attitude updating, degree
3, unit knot spacing scaled by 10. -/
def s0 : Agis where
  calc_sources := []
  real_sources := []
  updating := Updating.attitude
  verbose := false
  double_telescope := false
  attitude_regularisation_factor := 0
  degree_error := 0
  k := 3
  iter_counter := 0
  N := 0
  att_coeffs := fun _ _ => 0
  att_knots := fun i => 10 * (i : ℚ)
  attitude_splines := fun _ _ => 0

/-- A five-parameter vector used by the concrete stars. -/
def pEx : Fin 5 → ℚ := fun i => (i : ℚ) + 1

/-- A concrete star record with one observation at `t = 0`. -/
def csC1 : Calc_source :=
  ⟨"star", [0], pEx, 0, [], [], 0⟩

/-- Source-mode state with one star whose calculated parameters equal the
reference parameters. -/
def sC1 : Agis :=
  {s0 with calc_sources := [csC1], real_sources := [pEx], updating := Updating.source}

/-- Environment with non-trivial field angles and source attitudes, to
witness the residual identity away from degenerate zeros. -/
def envC1 : Ext :=
  {env0 with
    fieldAngles := fun p a t _ => (p 0 + a.w + t, 2 * p 1 + a.x),
    attitudeFromAlphaDelta := fun p t _ => ⟨p 0 + t, p 1, 0, 0⟩}

/-- A star with five observations (at times 0..4). -/
def csC2 : Calc_source :=
  ⟨"star", [0, 1, 2, 3, 4], (fun _ => 0), 0, [], [], 0⟩

/-- Source-mode state with the single five-observation star. -/
def sC2 : Agis :=
  {s0 with calc_sources := [csC2], real_sources := [fun _ => 0], updating := Updating.source}

/-- Environment whose residual Jacobian rows make `A` the 5×5 identity, so
the source normal matrix is invertible. -/
def envC2 : Ext :=
  {env0 with
    dRds := fun _ _ _ r c => if r = (c : ℕ) then -1 else 0,
    fieldAngles := fun p a t _ => (p 0 + a.w + t, p 1)}

/-- Environment whose residual Jacobian vanishes identically: five
observations, but a singular (zero) normal matrix. -/
def envC2sing : Ext :=
  {env0 with dRds := fun _ _ _ _ _ => 0}

/-- Two-star source-mode state (each star five observations), used to show
two stars recording the same error value in one pass. -/
def sC10 : Agis :=
  {s0 with
    calc_sources :=
      [⟨"a", [0, 1, 2, 3, 4], (fun _ => 0), 0, [], [], 0⟩,
       ⟨"b", [5, 6, 7, 8, 9], (fun _ => 0), 0, [], [], 0⟩],
    real_sources := [fun _ => 0, fun _ => 0],
    updating := Updating.source}

/-- Attitude-mode state: one span (`N = 1`), one star observed at times
0..3, all inside span 0's support `[0, 40)`, splines constant 1. -/
def sC7 : Agis :=
  {s0 with
    calc_sources := [⟨"star", [0, 1, 2, 3], (fun _ => 0), 0, [], [], 0⟩],
    real_sources := [fun _ => 0],
    updating := Updating.attitude,
    N := 1,
    att_coeffs := fun _ _ => 1,
    attitude_splines := fun _ _ => 1}

/-- Environment making the single attitude normal block the 4×4 identity:
basis constant 1, quaternion gradient at time `t ∈ {0,1,2,3}` the `t`-th
standard basis vector. -/
def envC7 : Ext :=
  {env0 with
    basis := fun _ _ => 1,
    dR_dq := fun _ _ t j => if t = (j : ℚ) then 1 else 0}

/-- Attitude-mode state with nonzero regularisation factor, one span, one
observation. -/
def sC4 : Agis :=
  {s0 with
    calc_sources := [⟨"star", [1], (fun _ => 0), 0, [], [], 0⟩],
    real_sources := [fun _ => 0],
    updating := Updating.attitude,
    N := 1,
    attitude_regularisation_factor := 1}

/-- Environment with a non-vanishing attitude-deviation term, so the sign
of the regularisation contribution is observable. -/
def envC4 : Ext :=
  {env0 with attitudeDeviation := fun _ => 1, dDLda := fun _ _ _ _ => 1}

/-- State whose attitude splines reconstruct the constant quaternion
`(3, 4, 0, 0)` (squared norm 25). -/
def sC6 : Agis :=
  {s0 with attitude_splines := fun j _ => if j = 0 then 3 else if j = 1 then 4 else 0}

/-- Two stars sharing observation time 1 (star 0 also observes 2, star 1
also observes 5). -/
def sC9 : Agis :=
  {s0 with
    calc_sources :=
      [⟨"a", [1, 2], (fun _ => 0), 0, [], [], 0⟩,
       ⟨"b", [1, 5], (fun _ => 0), 0, [], [], 0⟩],
    real_sources := [fun _ => 0, fun _ => 0]}

/-- The solved increment vector `d = (0, 1, ..., 7)` fed to the relayout
loop in the `N = 2` counterexample. -/
def dEx : ℕ → ℚ := fun p => (p : ℚ)

/-- The state produced by the concrete two-star source-block pass (used to
name the successful outcome in closed statements). -/
def run_S_block_C10 : Agis := (update_S_block envC2 sC10).toOption.getD s0

/-! ## Theorems -/

/-- The executable determinant agrees with `Matrix.det`. -/
theorem detQ_eq_det : ∀ {n : ℕ} (A : Matrix (Fin n) (Fin n) ℚ), detQ A = A.det
  | 0, A => by simp [detQ, Matrix.det_fin_zero]
  | n + 1, A => by
      rw [Matrix.det_succ_row_zero, Fin.sum_univ_def]
      simp only [detQ]
      congr 1
      apply List.map_congr_left
      intro j _
      rw [detQ_eq_det]
      rfl

/-- On a non-singular matrix, `npSolve` succeeds and returns a genuine
solution of the linear system. -/
theorem npSolve_ok {n : ℕ} (A : Matrix (Fin n) (Fin n) ℚ) (b : Fin n → ℚ)
    (h : detQ A ≠ 0) :
    npSolve A b = Except.ok (fun i => (detQ A)⁻¹ * detQ (A.updateColumn i b))
      ∧ A *ᵥ (fun i => (detQ A)⁻¹ * detQ (A.updateColumn i b)) = b := by
  constructor
  · simp [npSolve, h]
  · have hd : A.det ≠ 0 := by rwa [← detQ_eq_det]
    have hc : (fun i => (detQ A)⁻¹ * detQ (A.updateColumn i b)) = A.det⁻¹ • Matrix.cramer A b := by
      funext i
      simp [detQ_eq_det, Matrix.cramer_apply, Pi.smul_apply, smul_eq_mul]
    rw [hc, Matrix.mulVec_smul, Matrix.mulVec_cramer]
    funext i
    simp [Pi.smul_apply, smul_eq_mul]
    field_simp

/-- A left fold accumulating `+ f t` from `a` is `a` plus the list sum of
`f`. -/
theorem foldl_add_eq_sum {M : Type} [AddCommMonoid M] (f : ℚ → M) :
    ∀ (l : List ℚ) (a : M), l.foldl (fun acc t => acc + f t) a = a + (l.map f).sum
  | [], a => by simp
  | t :: l, a => by
      simp only [List.foldl_cons, List.map_cons, List.sum_cons]
      rw [foldl_add_eq_sum f l (a + f t), add_assoc]

/-- C1: `compute_R_L` returns the scalar
`(eta_obs - eta_calc) + (zeta_obs - zeta_calc)`, and when the calculated
parameters equal the reference parameters while both sides use the same
attitude, the residual is 0. -/
theorem compute_R_L_residual (env : Ext) (s : Agis) (i : ℕ) (t : Time) :
    (compute_R_L env s i t =
        ((get_field_angles env s i t).1.1 - (get_field_angles env s i t).2.1)
          + ((get_field_angles env s i t).1.2 - (get_field_angles env s i t).2.2))
    ∧ (attitude_gaia env s i t = attitude_in_effect env s i t →
        s.real_sources.getD i default = (s.calc_sources.getD i default).s_params →
        compute_R_L env s i t = 0) := by
  constructor
  · rfl
  · intro hatt hpar
    simp only [compute_R_L, deviate_field_angles_color_aberration, get_field_angles, hatt, hpar]
    ring

/-- Witness for C1 at a concrete configuration: one star in source mode,
calculated parameters equal to the reference ones. -/
theorem compute_R_L_residual_witness :
    (attitude_gaia envC1 sC1 0 0 = attitude_in_effect envC1 sC1 0 0
      ∧ sC1.real_sources.getD 0 default = (sC1.calc_sources.getD 0 default).s_params)
    ∧ compute_R_L envC1 sC1 0 0 = 0 :=
  ⟨⟨by with_unfolding_all decide, by with_unfolding_all decide⟩,
    (compute_R_L_residual envC1 sC1 0 0).2 (by with_unfolding_all decide)
      (by with_unfolding_all decide)⟩

/-- C3: the relayout loop of `update_A_block` writes through a view of the
solution vector `d`; at `N = 2` spans with `d = (0, ..., 7)`, coefficient
component `(1, 0)` does receive `d 1` as the span-major layout demands, but
component `(2, 0)` receives `d 1` as well instead of `d 2`: the claimed
layout `c_update j i = d (4*i + j)` fails. -/
theorem update_A_block_relayout_bug :
    c_update_of 2 dEx 1 0 = dEx (4 * 0 + 1)
    ∧ c_update_of 2 dEx 2 0 ≠ dEx (4 * 0 + 2)
    ∧ c_update_of 2 dEx 2 0 = dEx 1 := by
  refine ⟨?_, ?_, ?_⟩ <;> with_unfolding_all decide

/-- Multiplying a scaled quaternion on the left scales the product. -/
theorem Quaternion.qmul_qsmul_left (a : ℚ) (p q : Quaternion) :
    Quaternion.qmul (Quaternion.qsmul a p) q = Quaternion.qsmul a (Quaternion.qmul p q) := by
  simp only [Quaternion.qmul, Quaternion.qsmul, Quaternion.mk.injEq]
  refine ⟨by ring, by ring, by ring, by ring⟩

/-- Multiplying by a scaled quaternion on the right scales the product. -/
theorem Quaternion.qmul_qsmul_right (a : ℚ) (p q : Quaternion) :
    Quaternion.qmul p (Quaternion.qsmul a q) = Quaternion.qsmul a (Quaternion.qmul p q) := by
  simp only [Quaternion.qmul, Quaternion.qsmul, Quaternion.mk.injEq]
  refine ⟨by ring, by ring, by ring, by ring⟩

/-- Conjugation commutes with scaling. -/
theorem Quaternion.conj_qsmul (a : ℚ) (q : Quaternion) :
    Quaternion.conj (Quaternion.qsmul a q) = Quaternion.qsmul a (Quaternion.conj q) := by
  simp only [Quaternion.conj, Quaternion.qsmul, Quaternion.mk.injEq]
  refine ⟨by ring, by ring, by ring, by ring⟩

/-- Squared norm of a scaled quaternion. -/
theorem Quaternion.normSq_qsmul (a : ℚ) (q : Quaternion) :
    Quaternion.normSq (Quaternion.qsmul a q) = a ^ 2 * Quaternion.normSq q := by
  simp only [Quaternion.normSq, Quaternion.qsmul]
  ring

/-- Nested scalings compose. -/
theorem Quaternion.qsmul_qsmul (a b : ℚ) (q : Quaternion) :
    Quaternion.qsmul a (Quaternion.qsmul b q) = Quaternion.qsmul (a * b) q := by
  simp only [Quaternion.qsmul, Quaternion.mk.injEq]
  refine ⟨by ring, by ring, by ring, by ring⟩

/-- Rescaling a quaternion by a nonzero factor leaves its rotation action
unchanged. -/
theorem Quaternion.rotate_qsmul (a : ℚ) (q : Quaternion) (v : Fin 3 → ℚ)
    (ha : a ≠ 0) :
    (Quaternion.qsmul a q).rotate v = q.rotate v := by
  simp only [Quaternion.rotate, Quaternion.qmul_qsmul_left, Quaternion.conj_qsmul,
    Quaternion.qmul_qsmul_right, Quaternion.normSq_qsmul, Quaternion.qsmul_qsmul]
  congr 1
  rw [mul_inv, show a * a = a ^ 2 by ring,
    mul_comm ((a ^ 2)⁻¹) ((Quaternion.normSq q)⁻¹), mul_assoc,
    inv_mul_cancel₀ (pow_ne_zero 2 ha), mul_one]

/-- C6: whenever the square root used by `Quaternion.unit` is exact and
positive — in particular the four spline values are not all zero — the
`unit=True` attitude `get_attitude` feeds to the rotation pipeline has unit
norm and represents the same rotation as the unnormalised quaternion. -/
theorem get_attitude_unit_rotation (env : Ext) (s : Agis) (t : Time)
    (hsq : env.sqrtQ (Quaternion.normSq (get_attitude env s t false)) ^ 2
      = Quaternion.normSq (get_attitude env s t false))
    (hpos : 0 < env.sqrtQ (Quaternion.normSq (get_attitude env s t false))) :
    Quaternion.normSq (get_attitude env s t true) = 1
    ∧ ∀ v, (get_attitude env s t true).rotate v = (get_attitude env s t false).rotate v := by
  have hq : get_attitude env s t true
      = Quaternion.qsmul (env.sqrtQ (Quaternion.normSq (get_attitude env s t false)))⁻¹
        (get_attitude env s t false) := by
    simp [get_attitude, Quaternion.unitWith]
  have hn : env.sqrtQ (Quaternion.normSq (get_attitude env s t false)) ≠ 0 := ne_of_gt hpos
  have hS : Quaternion.normSq (get_attitude env s t false) ≠ 0 := by
    rw [← hsq]
    positivity
  constructor
  · rw [hq, Quaternion.normSq_qsmul]
    generalize env.sqrtQ (Quaternion.normSq (get_attitude env s t false)) = nn at hsq hn
    rw [← hsq]
    field_simp
  · intro v
    rw [hq, Quaternion.rotate_qsmul _ _ _ (inv_ne_zero hn)]

/-- Witness for C6 at the concrete splines reconstructing `(3, 4, 0, 0)`:
the square-root oracle returns 5 there. -/
theorem get_attitude_unit_rotation_witness :
    (0 < env0.sqrtQ (Quaternion.normSq (get_attitude env0 sC6 0 false)))
    ∧ Quaternion.normSq (get_attitude env0 sC6 0 true) = 1
    ∧ ∀ v, (get_attitude env0 sC6 0 true).rotate v = (get_attitude env0 sC6 0 false).rotate v :=
  ⟨by with_unfolding_all decide,
    (get_attitude_unit_rotation env0 sC6 0 (by with_unfolding_all decide)
      (by with_unfolding_all decide)).1,
    (get_attitude_unit_rotation env0 sC6 0 (by with_unfolding_all decide)
      (by with_unfolding_all decide)).2⟩

/-- C4 (amended): the attitude right-hand side for span `n` is the
negation of the sum, over the observation times in the span's support, of
the residual gradient times the residual *plus* `λ²` times the deviation
gradient times the deviation; with `λ = 0` the regularisation term
disappears. -/
theorem compute_attitude_RHS_n_sum (env : Ext) (s : Agis) (n : ℕ) :
    compute_attitude_RHS_n env s n
      = -(((time_support s n).map (fun t => fun j : Fin 4 =>
            dR_da_i (dRdq_at env s t) (env.basis n t) j
                * compute_R_L env s (source_index_at s t) t
              + s.attitude_regularisation_factor ^ 2
                  * env.dDLda (env.coeffBasisSum s.att_coeffs t) t n j
                  * env.attitudeDeviation (env.coeffBasisSum s.att_coeffs t))).sum)
    ∧ (s.attitude_regularisation_factor = 0 →
        compute_attitude_RHS_n env s n
          = -(((time_support s n).map (fun t => fun j : Fin 4 =>
                dR_da_i (dRdq_at env s t) (env.basis n t) j
                  * compute_R_L env s (source_index_at s t) t)).sum)) := by
  have hsum : compute_attitude_RHS_n env s n
      = -(((time_support s n).map (fun t => fun j : Fin 4 =>
            dR_da_i (dRdq_at env s t) (env.basis n t) j
                * compute_R_L env s (source_index_at s t) t
              + s.attitude_regularisation_factor ^ 2
                  * env.dDLda (env.coeffBasisSum s.att_coeffs t) t n j
                  * env.attitudeDeviation (env.coeffBasisSum s.att_coeffs t))).sum) := by
    unfold compute_attitude_RHS_n
    rw [foldl_add_eq_sum
      (fun t => fun j : Fin 4 =>
        dR_da_i (dRdq_at env s t) (env.basis n t) j
            * compute_R_L env s (source_index_at s t) t
          + s.attitude_regularisation_factor ^ 2
              * env.dDLda (env.coeffBasisSum s.att_coeffs t) t n j
              * env.attitudeDeviation (env.coeffBasisSum s.att_coeffs t))
      (time_support s n) 0]
    rw [zero_add]
  refine ⟨hsum, fun h0 => ?_⟩
  rw [hsum, h0]
  congr 1
  apply congrArg
  apply List.map_congr_left
  intro t _
  funext j
  ring

/-- Counterexample to C4 as stated: at a configuration with nonzero
regularisation factor and non-vanishing deviation, the value returned by
the code differs from the spec's minus-sign formula. -/
theorem compute_attitude_RHS_n_sign_counterexample :
    compute_attitude_RHS_n envC4 sC4 0 ≠ claimed_attitude_RHS_n envC4 sC4 0 := by
  with_unfolding_all decide

/-- Witness for C4's amended statement at a concrete zero-regularisation
configuration. -/
theorem compute_attitude_RHS_n_sum_witness :
    sC7.attitude_regularisation_factor = 0
    ∧ compute_attitude_RHS_n envC7 sC7 0
        = -(((time_support sC7 0).map (fun t => fun j : Fin 4 =>
              dR_da_i (dRdq_at envC7 sC7 t) (envC7.basis 0 t) j
                * compute_R_L envC7 sC7 (source_index_at sC7 t) t)).sum) :=
  ⟨by with_unfolding_all decide,
    (compute_attitude_RHS_n_sum envC7 sC7 0).2 (by with_unfolding_all decide)⟩

/-- C2 (amended): for a star whose normal matrix `Aᵀ W A` (with
`A = -dR_ds` the negated residual Jacobian, `W` the identity, `h` the
residual vector) is invertible, `update_block_S_i` solves
`Aᵀ W A · d = Aᵀ W h` and adds the increment `d` in place to that star's
five-parameter vector, leaving everything else unchanged. -/
theorem update_block_S_i_solves (env : Ext) (s : Agis) (i : ℕ)
    (hlen : i < s.calc_sources.length)
    (hobs : 5 ≤ (s.calc_sources.getD i default).obs_times.length)
    (hdet : detQ (source_LHS env (s.calc_sources.getD i default).s_params (s.calc_sources.getD i default).obs_times i) ≠ 0) :
    ∃ d : Fin 5 → ℚ,
      source_LHS env (s.calc_sources.getD i default).s_params (s.calc_sources.getD i default).obs_times i *ᵥ d = source_RHS env s i
      ∧ update_block_S_i env s i = Except.ok (set_star_params s i
          (fun p => (s.calc_sources.getD i default).s_params p + d p)) := by
  refine ⟨fun p => (detQ (source_LHS env (s.calc_sources.getD i default).s_params (s.calc_sources.getD i default).obs_times i))⁻¹
      * detQ ((source_LHS env (s.calc_sources.getD i default).s_params (s.calc_sources.getD i default).obs_times i).updateColumn p
          (source_RHS env s i)), ?_, ?_⟩
  · exact (npSolve_ok _ _ hdet).2
  · delta update_block_S_i
    rw [(npSolve_ok _ _ hdet).1]

/-- Counterexample to C2 as stated: a star with five observations whose
(degenerate) Jacobian makes the normal matrix singular; the update returns
no new state at all, so no increment is added. -/
theorem update_block_S_i_singular_counterexample :
    (sC2.calc_sources.getD 0 default).obs_times.length = 5
    ∧ exceptOk (update_block_S_i envC2sing sC2 0) = false := by
  exact ⟨by with_unfolding_all decide, by with_unfolding_all decide⟩

/-- Witness for C2's amended statement: a five-observation star whose
Jacobian is the identity, so the normal matrix is invertible. -/
theorem update_block_S_i_solves_witness :
    (0 < sC2.calc_sources.length
      ∧ 5 ≤ (sC2.calc_sources.getD 0 default).obs_times.length
      ∧ detQ (source_LHS envC2 (sC2.calc_sources.getD 0 default).s_params (sC2.calc_sources.getD 0 default).obs_times 0) ≠ 0)
    ∧ ∃ d : Fin 5 → ℚ,
        source_LHS envC2 (sC2.calc_sources.getD 0 default).s_params (sC2.calc_sources.getD 0 default).obs_times 0 *ᵥ d = source_RHS envC2 sC2 0
        ∧ update_block_S_i envC2 sC2 0 = Except.ok (set_star_params sC2 0
            (fun p => (sC2.calc_sources.getD 0 default).s_params p + d p)) :=
  ⟨⟨by with_unfolding_all decide, by with_unfolding_all decide, by with_unfolding_all decide⟩,
    update_block_S_i_solves envC2 sC2 0 (by with_unfolding_all decide)
      (by with_unfolding_all decide) (by with_unfolding_all decide)⟩

/-- Inserting a source's times into the dictionary: every listed time maps
to that source's index, other times are untouched. -/
theorem timeDictInsert_apply (idx : ℕ) (t : Time) :
    ∀ (ts : List Time) (d : Time → Option ℕ),
      timeDictInsert d idx ts t = if t ∈ ts then some idx else d t
  | [], d => by simp [timeDictInsert]
  | t0 :: ts, d => by
      show timeDictInsert (Function.update d t0 (some idx)) idx ts t = _
      rw [timeDictInsert_apply idx t ts]
      by_cases h1 : t ∈ ts
      · simp [h1]
      · by_cases h2 : t = t0 <;> simp [h1, h2, Function.update_apply]

/-- A time belonging to none of the listed sources is looked up in the
accumulator dictionary. -/
theorem timeDictAux_notmem :
    ∀ (l : List Calc_source) (idx : ℕ) (d : Time → Option ℕ) (t : Time),
      (∀ cs ∈ l, t ∉ cs.obs_times) → timeDictAux idx l d t = d t
  | [], _, _, _ => fun _ => rfl
  | cs :: rest, idx, d, t => fun h => by
      rw [timeDictAux,
        timeDictAux_notmem rest _ _ _ (fun c hc => h c (List.mem_cons_of_mem _ hc))]
      rw [timeDictInsert_apply]
      simp [h cs (List.mem_cons_self cs rest)]

/-- The dictionary lookup fails exactly when the accumulator fails and no
listed source observes the time. -/
theorem timeDictAux_eq_none :
    ∀ (l : List Calc_source) (idx : ℕ) (d : Time → Option ℕ) (t : Time),
      (timeDictAux idx l d t = none ↔ d t = none ∧ ∀ cs ∈ l, t ∉ cs.obs_times)
  | [], idx, d, t => by simp [timeDictAux]
  | cs :: rest, idx, d, t => by
      rw [timeDictAux, timeDictAux_eq_none rest]
      rw [timeDictInsert_apply]
      by_cases h : t ∈ cs.obs_times
      · simp [h]
      · simp only [h, if_false, List.forall_mem_cons]
        tauto

/-- The last source claiming a time wins the dictionary entry. -/
theorem timeDictAux_last (t : Time) :
    ∀ (l : List Calc_source) (idx : ℕ) (d : Time → Option ℕ) (j : ℕ),
      j < l.length →
      t ∈ (l.getD j default).obs_times →
      (∀ q, j < q → q < l.length → t ∉ (l.getD q default).obs_times) →
      timeDictAux idx l d t = some (idx + j)
  | [], idx, d, j => by
      intro hj
      exact absurd hj (by simp)
  | cs :: rest, idx, d, 0 => by
      intro _ ht hlast
      rw [timeDictAux]
      rw [timeDictAux_notmem rest _ _ t ?_]
      · rw [timeDictInsert_apply]
        simp only [List.getD_cons_zero] at ht
        simp [ht]
      · intro c hc hmem
        obtain ⟨q, hq, rfl⟩ := List.getElem_of_mem hc
        exact hlast (q + 1) (Nat.succ_pos q) (by simpa using hq)
          (by simpa [List.getD, List.getElem?_eq_getElem hq] using hmem)
  | cs :: rest, idx, d, j + 1 => by
      intro hj ht hlast
      rw [timeDictAux]
      rw [timeDictAux_last t rest (idx + 1) _ j (by simpa using hj)
        (by simpa using ht)
        (fun q hq hql => by simpa using hlast (q + 1) (by omega) (by simpa using hql))]
      congr 1
      omega

/-- C9: when source `j` observes time `t` and no later source does,
`get_source_index` returns `j` (so a time shared between two sources is
attributed to the larger index — the last inserted wins — and the
attitude-block assembly reads exactly that index); and the lookup raises
exactly for times absent from every source's observation list. -/
theorem get_source_index_spec (s : Agis) (t : Time) (j : ℕ)
    (hj : j < s.calc_sources.length)
    (ht : t ∈ (s.calc_sources.getD j default).obs_times)
    (hlast : ∀ q, j < q → q < s.calc_sources.length →
      t ∉ (s.calc_sources.getD q default).obs_times) :
    get_source_index s t = Except.ok j
    ∧ source_index_at s t = j
    ∧ ∀ u : Time, (get_source_index s u = Except.error "time not in time_dict"
        ↔ ∀ q < s.calc_sources.length, u ∉ (s.calc_sources.getD q default).obs_times) := by
  have hdict : time_dict s.calc_sources t = some j := by
    have := timeDictAux_last t s.calc_sources 0 (fun _ => none) j hj ht hlast
    simpa [time_dict] using this
  refine ⟨?_, ?_, ?_⟩
  · rw [get_source_index, hdict]
  · rw [source_index_at, hdict]
    rfl
  · intro u
    have hnone : time_dict s.calc_sources u = none
        ↔ ∀ cs ∈ s.calc_sources, u ∉ cs.obs_times := by
      rw [time_dict, timeDictAux_eq_none]
      simp
    constructor
    · intro herr q hq hmem
      have hnone' : time_dict s.calc_sources u = none := by
        rw [get_source_index] at herr
        cases hcase : time_dict s.calc_sources u with
        | none => rfl
        | some v => rw [hcase] at herr; exact Except.noConfusion herr
      have hg : s.calc_sources.getD q default ∈ s.calc_sources := by
        have hge : s.calc_sources.getD q default = s.calc_sources[q] := by
          simp [List.getD, List.getElem?_eq_getElem hq]
        rw [hge]
        exact List.getElem_mem hq
      exact (hnone.mp hnone') _ hg hmem
    · intro habs
      have : time_dict s.calc_sources u = none := by
        rw [hnone]
        intro cs hcs hmem
        obtain ⟨q, hq, rfl⟩ := List.getElem_of_mem hcs
        exact habs q hq (by simpa [List.getD, List.getElem?_eq_getElem hq] using hmem)
      rw [get_source_index, this]

/-- Witness for C9: two concrete stars share observation time 1; the
lookup returns the larger index 1. -/
theorem get_source_index_spec_witness :
    (1 < sC9.calc_sources.length
      ∧ (1 : ℚ) ∈ (sC9.calc_sources.getD 0 default).obs_times
      ∧ (1 : ℚ) ∈ (sC9.calc_sources.getD 1 default).obs_times)
    ∧ get_source_index sC9 1 = Except.ok 1
    ∧ source_index_at sC9 1 = 1
    ∧ ∀ u : Time, (get_source_index sC9 u = Except.error "time not in time_dict"
        ↔ ∀ q < sC9.calc_sources.length, u ∉ (sC9.calc_sources.getD q default).obs_times) :=
  ⟨⟨by with_unfolding_all decide, by with_unfolding_all decide, by with_unfolding_all decide⟩,
    get_source_index_spec sC9 1 1 (by with_unfolding_all decide)
      (by with_unfolding_all decide)
      (by
        intro q hq hql _
        have hlen2 : sC9.calc_sources.length = 2 := by with_unfolding_all decide
        omega)⟩

/-- Entry of a sum of matrices over a list. -/
theorem listSum_matrix_apply {ι κ : Type} (l : List ℚ) (f : ℚ → Matrix ι κ ℚ) (j : ι) (j' : κ) :
    ((l.map f).sum) j j' = (l.map (fun t => f t j j')).sum := by
  induction l with
  | nil => simp
  | cons t l ih => simp [Matrix.add_apply, ih]

/-- Dropping a filter under a sum when the summand vanishes off the
filter. -/
theorem listSum_filter_eq {P : ℚ → Bool} {f : ℚ → ℚ} :
    ∀ l : List ℚ, (∀ t ∈ l, P t = false → f t = 0) →
      ((l.filter P).map f).sum = (l.map f).sum
  | [], _ => rfl
  | t :: l, h => by
      rw [List.filter_cons]
      by_cases hp : P t
      · simp [hp, listSum_filter_eq l (fun u hu => h u (List.mem_cons_of_mem _ hu))]
      · have hz : f t = 0 := h t (List.mem_cons_self t l) (by simpa using hp)
        simp [hp, hz, listSum_filter_eq l (fun u hu => h u (List.mem_cons_of_mem _ hu))]

/-- Multiply a list sum on the right. -/
theorem listSum_mul_right (l : List ℚ) (f : ℚ → ℚ) (c : ℚ) :
    (l.map f).sum * c = (l.map (fun t => f t * c)).sum := by
  induction l with
  | nil => simp
  | cons t l ih => simp [add_mul, ih]

/-- Multiply a list sum on the left. -/
theorem listSum_mul_left (l : List ℚ) (f : ℚ → ℚ) (c : ℚ) :
    c * (l.map f).sum = (l.map (fun t => c * f t)).sum := by
  induction l with
  | nil => simp
  | cons t l ih => simp [mul_add, ih]

/-- Swap a finite sum with a list sum. -/
theorem finsetSum_listSum_swap {ι : Type} [Fintype ι] (l : List ℚ) (g : ι → ℚ → ℚ) :
    ∑ q, (l.map (g q)).sum = (l.map (fun t => ∑ q, g q t)).sum := by
  induction l with
  | nil => simp
  | cons t l ih => simp [Finset.sum_add_distrib, ih]

/-- With zero regularisation factor, an entry of `compute_Naa_mn` is the
sum of products of the two residual-gradient components over the supports'
intersection. -/
theorem compute_Naa_mn_entry (env : Ext) (s : Agis)
    (hreg : s.attitude_regularisation_factor = 0) (m n : ℕ) (j j' : Fin 4) :
    compute_Naa_mn env s m n j j'
      = ((mn_time_support s m n).map (fun t =>
          (dRdq_at env s t j * env.basis n t) * (dRdq_at env s t j' * env.basis m t))).sum := by
  unfold compute_Naa_mn
  rw [foldl_add_eq_sum _ (mn_time_support s m n) 0, zero_add, listSum_matrix_apply]
  apply congrArg
  apply List.map_congr_left
  intro t _
  simp [hreg, outer, dR_da_i, Matrix.add_apply, Matrix.smul_apply]

/-- C5: with one calculated source and zero regularisation (and the
defining property of B-spline bases — each basis vanishes off its own knot
support), the assembled attitude normal matrix is symmetric and positive
semi-definite. -/
theorem compute_attitude_LHS_sym_psd (env : Ext) (s : Agis)
    (hone : s.calc_sources.length = 1)
    (hreg : s.attitude_regularisation_factor = 0)
    (hb : ∀ n ∈ List.range s.N, ∀ t ∈ all_obs_times s,
        in_knot_support s n t = false → env.basis n t = 0) :
    (compute_attitude_LHS env s)ᵀ = compute_attitude_LHS env s
    ∧ ∀ x : Fin (s.N * 4) → ℚ, 0 ≤ x ⬝ᵥ (compute_attitude_LHS env s *ᵥ x) := by
  have hdivlt : ∀ p : Fin (s.N * 4), p.1 / 4 < s.N := by
    intro p
    have := p.2
    omega
  -- every entry extends from the supports' intersection to the full list
  have hfull : ∀ p q : Fin (s.N * 4),
      compute_attitude_LHS env s p q
        = ((all_obs_times s).map (fun t =>
            (dRdq_at env s t ⟨p.1 % 4, Nat.mod_lt _ (by norm_num)⟩ * env.basis (p.1 / 4) t)
              * (dRdq_at env s t ⟨q.1 % 4, Nat.mod_lt _ (by norm_num)⟩
                  * env.basis (q.1 / 4) t))).sum := by
    intro p q
    show compute_Naa_mn env s (q.1 / 4) (p.1 / 4) _ _ = _
    rw [compute_Naa_mn_entry env s hreg]
    rw [mn_time_support]
    apply listSum_filter_eq
    intro t ht hfalse
    rcases Bool.and_eq_false_iff.mp hfalse with hcase | hcase
    · have : env.basis (q.1 / 4) t = 0 :=
        hb _ (List.mem_range.mpr (hdivlt q)) t ht hcase
      rw [this]
      ring
    · have : env.basis (p.1 / 4) t = 0 :=
        hb _ (List.mem_range.mpr (hdivlt p)) t ht hcase
      rw [this]
      ring
  constructor
  · funext p q
    rw [Matrix.transpose_apply, hfull p q, hfull q p]
    apply congrArg
    apply List.map_congr_left
    intro t _
    ring
  · intro x
    have hexp : x ⬝ᵥ (compute_attitude_LHS env s *ᵥ x)
        = ∑ p, x p * ∑ q, compute_attitude_LHS env s p q * x q := by
      simp [Matrix.dotProduct, Matrix.mulVec]
    rw [hexp]
    have hstep : ∀ p : Fin (s.N * 4),
        ∑ q, compute_attitude_LHS env s p q * x q
          = ((all_obs_times s).map (fun t =>
              (dRdq_at env s t ⟨p.1 % 4, Nat.mod_lt _ (by norm_num)⟩
                  * env.basis (p.1 / 4) t)
                * ∑ q : Fin (s.N * 4),
                    (dRdq_at env s t ⟨q.1 % 4, Nat.mod_lt _ (by norm_num)⟩
                        * env.basis (q.1 / 4) t) * x q)).sum := by
      intro p
      have h1 : ∀ q : Fin (s.N * 4), compute_attitude_LHS env s p q * x q
          = ((all_obs_times s).map (fun t =>
              ((dRdq_at env s t ⟨p.1 % 4, Nat.mod_lt _ (by norm_num)⟩
                  * env.basis (p.1 / 4) t)
                * (dRdq_at env s t ⟨q.1 % 4, Nat.mod_lt _ (by norm_num)⟩
                    * env.basis (q.1 / 4) t)) * x q)).sum := by
        intro q
        rw [hfull p q, listSum_mul_right]
      calc ∑ q, compute_attitude_LHS env s p q * x q
          = ∑ q : Fin (s.N * 4), ((all_obs_times s).map (fun t =>
              ((dRdq_at env s t ⟨p.1 % 4, Nat.mod_lt _ (by norm_num)⟩
                  * env.basis (p.1 / 4) t)
                * (dRdq_at env s t ⟨q.1 % 4, Nat.mod_lt _ (by norm_num)⟩
                    * env.basis (q.1 / 4) t)) * x q)).sum := by
            exact Finset.sum_congr rfl (fun q _ => h1 q)
        _ = ((all_obs_times s).map (fun t => ∑ q : Fin (s.N * 4),
              ((dRdq_at env s t ⟨p.1 % 4, Nat.mod_lt _ (by norm_num)⟩
                  * env.basis (p.1 / 4) t)
                * (dRdq_at env s t ⟨q.1 % 4, Nat.mod_lt _ (by norm_num)⟩
                    * env.basis (q.1 / 4) t)) * x q)).sum := by
            exact finsetSum_listSum_swap _ _
        _ = _ := by
            apply congrArg
            apply List.map_congr_left
            intro t _
            rw [Finset.mul_sum]
            exact Finset.sum_congr rfl (fun q _ => by ring)
    calc ∑ p, x p * ∑ q, compute_attitude_LHS env s p q * x q
        = ∑ p : Fin (s.N * 4), ((all_obs_times s).map (fun t =>
            ((dRdq_at env s t ⟨p.1 % 4, Nat.mod_lt _ (by norm_num)⟩
                * env.basis (p.1 / 4) t) * x p)
              * ∑ q : Fin (s.N * 4),
                  (dRdq_at env s t ⟨q.1 % 4, Nat.mod_lt _ (by norm_num)⟩
                      * env.basis (q.1 / 4) t) * x q)).sum := by
          refine Finset.sum_congr rfl (fun p _ => ?_)
          rw [hstep p, listSum_mul_left]
          apply congrArg
          apply List.map_congr_left
          intro t _
          ring
      _ = ((all_obs_times s).map (fun t => ∑ p : Fin (s.N * 4),
            ((dRdq_at env s t ⟨p.1 % 4, Nat.mod_lt _ (by norm_num)⟩
                * env.basis (p.1 / 4) t) * x p)
              * ∑ q : Fin (s.N * 4),
                  (dRdq_at env s t ⟨q.1 % 4, Nat.mod_lt _ (by norm_num)⟩
                      * env.basis (q.1 / 4) t) * x q)).sum := finsetSum_listSum_swap _ _
      _ = ((all_obs_times s).map (fun t =>
            (∑ q : Fin (s.N * 4),
                (dRdq_at env s t ⟨q.1 % 4, Nat.mod_lt _ (by norm_num)⟩
                    * env.basis (q.1 / 4) t) * x q)
              * ∑ q : Fin (s.N * 4),
                  (dRdq_at env s t ⟨q.1 % 4, Nat.mod_lt _ (by norm_num)⟩
                      * env.basis (q.1 / 4) t) * x q)).sum := by
          apply congrArg
          apply List.map_congr_left
          intro t _
          rw [← Finset.sum_mul]
      _ ≥ 0 := by
          apply List.sum_nonneg
          intro a ha
          obtain ⟨t, _, rfl⟩ := List.mem_map.mp ha
          exact mul_self_nonneg _

/-- Witness for C5 at the one-star, one-span, zero-regularisation
configuration (basis constant on its support, all four observations inside
the single span's support). -/
theorem compute_attitude_LHS_sym_psd_witness :
    (sC7.calc_sources.length = 1
      ∧ sC7.attitude_regularisation_factor = 0
      ∧ ∀ n ∈ List.range sC7.N, ∀ t ∈ all_obs_times sC7,
          in_knot_support sC7 n t = false → envC7.basis n t = 0)
    ∧ (compute_attitude_LHS envC7 sC7)ᵀ = compute_attitude_LHS envC7 sC7
    ∧ ∀ x : Fin (sC7.N * 4) → ℚ, 0 ≤ x ⬝ᵥ (compute_attitude_LHS envC7 sC7 *ᵥ x) :=
  ⟨⟨by with_unfolding_all decide, by with_unfolding_all decide,
      by with_unfolding_all decide⟩,
    compute_attitude_LHS_sym_psd envC7 sC7 (by with_unfolding_all decide)
      (by with_unfolding_all decide) (by with_unfolding_all decide)⟩

/-- `List.set` at another index leaves a `getD` lookup unchanged. -/
theorem getD_set_ne {α : Type} [Inhabited α] (l : List α) (j i : ℕ) (a : α) (h : j ≠ i) :
    (l.set j a).getD i default = l.getD i default := by
  simp [List.getD, List.getElem?_set_ne h]

/-- `List.set` at an in-range index updates the `getD` lookup. -/
theorem getD_set_eq {α : Type} [Inhabited α] (l : List α) (i : ℕ) (a : α) (h : i < l.length) :
    (l.set i a).getD i default = a := by
  simp [List.getD, List.getElem?_set_self, h]

/-- `set_star_params` only rewrites the targeted star's record. -/
theorem set_star_params_getD_ne (s : Agis) (i : ℕ) (q : Fin 5 → ℚ) (j : ℕ) (h : i ≠ j) :
    (set_star_params s i q).calc_sources.getD j default = s.calc_sources.getD j default :=
  getD_set_ne _ _ _ _ h

/-- `append_histories` preserves every star's parameters and observation
times (it only appends to the history lists). -/
theorem append_histories_params_times (env : Ext) (s : Agis) (i j : ℕ) :
    ((append_histories env s i).calc_sources.getD j default).s_params
        = (s.calc_sources.getD j default).s_params
    ∧ ((append_histories env s i).calc_sources.getD j default).obs_times
        = (s.calc_sources.getD j default).obs_times := by
  by_cases hij : i = j
  · subst hij
    by_cases hlen : i < s.calc_sources.length
    · rw [show (append_histories env s i).calc_sources.getD i default
          = {s.calc_sources.getD i default with
              s_old := (s.calc_sources.getD i default).s_old
                ++ [(s.calc_sources.getD i default).s_params],
              errors := (s.calc_sources.getD i default).errors
                ++ [error_function env s]} from getD_set_eq _ _ _ hlen]
      exact ⟨rfl, rfl⟩
    · have hset : (append_histories env s i).calc_sources = s.calc_sources := by
        apply List.set_eq_of_length_le
        omega
      rw [hset]
      exact ⟨rfl, rfl⟩
  · rw [show (append_histories env s i).calc_sources.getD j default
        = s.calc_sources.getD j default from getD_set_ne _ _ _ _ hij]
    exact ⟨rfl, rfl⟩

/-- `append_histories` preserves the star count. -/
theorem append_histories_length (env : Ext) (s : Agis) (i : ℕ) :
    (append_histories env s i).calc_sources.length = s.calc_sources.length := by
  simp [append_histories]

/-- `set_star_params` preserves the star count. -/
theorem set_star_params_length (s : Agis) (i : ℕ) (q : Fin 5 → ℚ) :
    (set_star_params s i q).calc_sources.length = s.calc_sources.length := by
  simp [set_star_params]

/-- `npSolve` fails on a singular matrix. -/
theorem npSolve_err {n : ℕ} (A : Matrix (Fin n) (Fin n) ℚ) (b : Fin n → ℚ)
    (h : detQ A = 0) : npSolve A b = Except.error "Singular matrix" := by
  simp [npSolve, h]

/-- `update_block_S_i` either fails on a singular normal matrix or
succeeds, adding some increment to the targeted star's parameters. -/
theorem update_block_S_i_cases (env : Ext) (s : Agis) (i : ℕ) :
    (detQ (source_LHS env (s.calc_sources.getD i default).s_params
        (s.calc_sources.getD i default).obs_times i) = 0
      ∧ update_block_S_i env s i = Except.error "Singular matrix")
    ∨ (detQ (source_LHS env (s.calc_sources.getD i default).s_params
        (s.calc_sources.getD i default).obs_times i) ≠ 0
      ∧ ∃ d : Fin 5 → ℚ, update_block_S_i env s i
          = Except.ok (set_star_params s i
              (fun p => (s.calc_sources.getD i default).s_params p + d p))) := by
  by_cases h : detQ (source_LHS env (s.calc_sources.getD i default).s_params
      (s.calc_sources.getD i default).obs_times i) = 0
  · left
    refine ⟨h, ?_⟩
    delta update_block_S_i
    rw [npSolve_err _ _ h]
  · right
    refine ⟨h, ?_, ?_⟩
    · exact fun p => (detQ (source_LHS env (s.calc_sources.getD i default).s_params
          (s.calc_sources.getD i default).obs_times i))⁻¹
        * detQ ((source_LHS env (s.calc_sources.getD i default).s_params
            (s.calc_sources.getD i default).obs_times i).updateColumn p (source_RHS env s i))
    · delta update_block_S_i
      rw [(npSolve_ok _ _ h).1]

/-- A successful `update_block_S_i` is a parameter overwrite of the
targeted star. -/
theorem update_block_S_i_ok_shape (env : Ext) (s : Agis) (i : ℕ) (s' : Agis)
    (h : update_block_S_i env s i = Except.ok s') :
    ∃ q : Fin 5 → ℚ, s' = set_star_params s i q := by
  rcases update_block_S_i_cases env s i with ⟨_, herr⟩ | ⟨_, d, hok⟩
  · rw [herr] at h
    exact Except.noConfusion h
  · rw [hok] at h
    exact ⟨_, (Except.ok.inj h).symm⟩

/-- A successful per-star step of `update_S_block` preserves the other
stars' records, the star count, and the configuration fields. -/
theorem update_S_block_step_preserves (env : Ext) (s : Agis) (i : ℕ) (s2 : Agis)
    (h : update_S_block_step env s i = Except.ok s2) :
    (∀ j, i ≠ j → s2.calc_sources.getD j default = s.calc_sources.getD j default)
    ∧ s2.calc_sources.length = s.calc_sources.length
    ∧ s2.verbose = s.verbose ∧ s2.updating = s.updating := by
  obtain ⟨q, rfl⟩ := update_block_S_i_ok_shape env _ i s2 h
  refine ⟨?_, ?_, rfl, rfl⟩
  · intro j hij
    rw [set_star_params_getD_ne _ _ _ _ hij]
    exact getD_set_ne _ _ _ _ hij
  · rw [set_star_params_length, append_histories_length]

/-- Processing a list of star indices containing a star whose normal
matrix is singular aborts with the numpy singularity error. -/
theorem update_S_block_aux_err (env : Ext) (i : ℕ) :
    ∀ (l : List ℕ) (s : Agis), i ∈ l →
      detQ (source_LHS env (s.calc_sources.getD i default).s_params
        (s.calc_sources.getD i default).obs_times i) = 0 →
      update_S_block_aux env s l = Except.error "Singular matrix"
  | [], s => by
      intro h
      exact absurd h (List.not_mem_nil i)
  | j :: rest, s => by
      intro hmem hdet
      have happ := append_histories_params_times env s j j
      rcases update_block_S_i_cases env (append_histories env s j) j with ⟨_, herr⟩ | ⟨hne, d, hok⟩
      · show (match update_S_block_step env s j with
          | Except.error e => Except.error e
          | Except.ok s2 => update_S_block_aux env s2 rest) = _
        rw [update_S_block_step, herr]
      · by_cases hij : j = i
        · subst hij
          rw [happ.1, happ.2] at hne
          exact absurd hdet hne
        · show (match update_S_block_step env s j with
            | Except.error e => Except.error e
            | Except.ok s2 => update_S_block_aux env s2 rest) = _
          rw [update_S_block_step, hok]
          have hrest : i ∈ rest := by
            rcases List.mem_cons.mp hmem with h | h
            · exact absurd h.symm hij
            · exact h
          apply update_S_block_aux_err env i rest _ hrest
          have hpres : (set_star_params (append_histories env s j) j
                (fun p => ((append_histories env s j).calc_sources.getD j default).s_params p
                  + d p)).calc_sources.getD i default
              = s.calc_sources.getD i default := by
            rw [set_star_params_getD_ne _ _ _ _ hij]
            exact getD_set_ne _ _ _ _ hij
          rw [hpres]
          exact hdet

/-- A singular star aborts the whole source-block pass. -/
theorem update_S_block_err (env : Ext) (s : Agis) (i : ℕ)
    (hlen : i < s.calc_sources.length)
    (hdet : detQ (source_LHS env (s.calc_sources.getD i default).s_params
      (s.calc_sources.getD i default).obs_times i) = 0) :
    update_S_block env s = Except.error "Singular matrix" :=
  update_S_block_aux_err env i (List.range s.calc_sources.length) s
    (List.mem_range.mpr hlen) hdet

/-- In the two source modes, the configured block update is the
source-block pass. -/
theorem block_update_eq_S (env : Ext) (s : Agis)
    (h : s.updating = Updating.source ∨ s.updating = Updating.scannedSource) :
    block_update env s = update_S_block env s := by
  rcases h with h | h
  all_goals delta block_update
  all_goals rw [h]

/-- C8: a star whose 5×5 normal matrix is singular makes the source-block
update fail with the numerical-singularity error instead of producing an
increment; the source-block pass propagates the failure, and the driver
does not catch it, so `iterate` aborts on its first pass. -/
theorem singular_source_update_aborts (env : Ext) (s : Agis) (i : ℕ)
    (hlen : i < s.calc_sources.length)
    (hdet : detQ (source_LHS env (s.calc_sources.getD i default).s_params
      (s.calc_sources.getD i default).obs_times i) = 0) :
    update_block_S_i env s i = Except.error "Singular matrix"
    ∧ update_S_block env s = Except.error "Singular matrix"
    ∧ ((s.updating = Updating.source ∨ s.updating = Updating.scannedSource) →
        ∀ num, (iterate env s (num + 1)).2 = Except.error "Singular matrix") := by
  have h1 : update_block_S_i env s i = Except.error "Singular matrix" := by
    rcases update_block_S_i_cases env s i with ⟨_, herr⟩ | ⟨hne, _⟩
    · exact herr
    · exact absurd hdet hne
  have h2 : update_S_block env s = Except.error "Singular matrix" :=
    update_S_block_err env s i hlen hdet
  refine ⟨h1, h2, ?_⟩
  intro hmode num
  have h2' : update_S_block env {s with iter_counter := s.iter_counter + 1}
      = Except.error "Singular matrix" :=
    update_S_block_err env _ i hlen hdet
  have hbu : block_update env {s with iter_counter := s.iter_counter + 1}
      = Except.error "Singular matrix" := by
    rw [block_update_eq_S env {s with iter_counter := s.iter_counter + 1} hmode, h2']
  simp [iterate, hbu]

/-- Witness for C8: the concrete five-observation star with vanishing
Jacobian. -/
theorem singular_source_update_aborts_witness :
    (0 < sC2.calc_sources.length
      ∧ detQ (source_LHS envC2sing (sC2.calc_sources.getD 0 default).s_params
          (sC2.calc_sources.getD 0 default).obs_times 0) = 0)
    ∧ update_block_S_i envC2sing sC2 0 = Except.error "Singular matrix"
    ∧ update_S_block envC2sing sC2 = Except.error "Singular matrix"
    ∧ ((sC2.updating = Updating.source ∨ sC2.updating = Updating.scannedSource) →
        ∀ num, (iterate envC2sing sC2 (num + 1)).2 = Except.error "Singular matrix") :=
  ⟨⟨by with_unfolding_all decide, by with_unfolding_all decide⟩,
    singular_source_update_aborts envC2sing sC2 0 (by with_unfolding_all decide)
      (by with_unfolding_all decide)⟩

/-- Splitting a source-block pass over an index-list concatenation. -/
theorem update_S_block_aux_append (env : Ext) :
    ∀ (l1 l2 : List ℕ) (s : Agis),
      update_S_block_aux env s (l1 ++ l2)
        = (match update_S_block_aux env s l1 with
           | Except.error e => Except.error e
           | Except.ok s1 => update_S_block_aux env s1 l2)
  | [], l2, s => rfl
  | j :: l1, l2, s => by
      show (match update_S_block_step env s j with
        | Except.error e => Except.error e
        | Except.ok s2 => update_S_block_aux env s2 (l1 ++ l2)) = _
      cases hstep : update_S_block_step env s j with
      | error e => simp [update_S_block_aux, hstep]
      | ok s2 => simp [update_S_block_aux, hstep, update_S_block_aux_append env l1 l2 s2]

/-- A successful pass over indices avoiding star `i` leaves star `i`'s
record (and the configuration) unchanged. -/
theorem update_S_block_aux_preserves (env : Ext) (i : ℕ) :
    ∀ (l : List ℕ) (s s' : Agis), (∀ j ∈ l, j ≠ i) →
      update_S_block_aux env s l = Except.ok s' →
      s'.calc_sources.getD i default = s.calc_sources.getD i default
      ∧ s'.calc_sources.length = s.calc_sources.length
  | [], s, s' => fun _ h => by
      cases h
      exact ⟨rfl, rfl⟩
  | j :: l, s, s' => fun hne h => by
      revert h
      show (match update_S_block_step env s j with
        | Except.error e => Except.error e
        | Except.ok s2 => update_S_block_aux env s2 l) = Except.ok s' → _
      cases hstep : update_S_block_step env s j with
      | error e => intro h; exact Except.noConfusion h
      | ok s2 =>
          intro h
          have hpres := update_S_block_step_preserves env s j s2 hstep
          have ih := update_S_block_aux_preserves env i l s2 s'
            (fun q hq => hne q (List.mem_cons_of_mem _ hq)) h
          have hji : j ≠ i := hne j (List.mem_cons_self j l)
          exact ⟨by rw [ih.1, hpres.1 i hji], by rw [ih.2, hpres.2.1]⟩

/-- A successful pass preserves the configuration fields and star count. -/
theorem update_S_block_aux_config (env : Ext) :
    ∀ (l : List ℕ) (s s' : Agis), update_S_block_aux env s l = Except.ok s' →
      s'.verbose = s.verbose ∧ s'.updating = s.updating
      ∧ s'.calc_sources.length = s.calc_sources.length
  | [], s, s' => fun h => by
      cases h
      exact ⟨rfl, rfl, rfl⟩
  | j :: l, s, s' => fun h => by
      revert h
      show (match update_S_block_step env s j with
        | Except.error e => Except.error e
        | Except.ok s2 => update_S_block_aux env s2 l) = Except.ok s' → _
      cases hstep : update_S_block_step env s j with
      | error e => intro h; exact Except.noConfusion h
      | ok s2 =>
          intro h
          have hpres := update_S_block_step_preserves env s j s2 hstep
          have ih := update_S_block_aux_config env l s2 s' h
          exact ⟨by rw [ih.1, hpres.2.2.1], by rw [ih.2.1, hpres.2.2.2],
            by rw [ih.2.2, hpres.2.1]⟩

/-- A successful per-star step appends exactly the pre-update global error
value to that star's error history. -/
theorem update_S_block_step_errors_after (env : Ext) (s : Agis) (i : ℕ) (s2 : Agis)
    (hlen : i < s.calc_sources.length)
    (h : update_S_block_step env s i = Except.ok s2) :
    (s2.calc_sources.getD i default).errors
      = (s.calc_sources.getD i default).errors ++ [error_function env s] := by
  obtain ⟨q, rfl⟩ := update_block_S_i_ok_shape env _ i s2 h
  have hlen1 : i < (append_histories env s i).calc_sources.length := by
    rw [append_histories_length]
    exact hlen
  have hset : (set_star_params (append_histories env s i) i q).calc_sources.getD i default
      = {(append_histories env s i).calc_sources.getD i default with s_params := q} :=
    getD_set_eq _ _ _ hlen1
  have happ : (append_histories env s i).calc_sources.getD i default
      = {s.calc_sources.getD i default with
          s_old := (s.calc_sources.getD i default).s_old
            ++ [(s.calc_sources.getD i default).s_params],
          errors := (s.calc_sources.getD i default).errors ++ [error_function env s]} :=
    getD_set_eq _ _ _ hlen
  rw [hset, happ]

/-- C10 (amended): a successful source-block pass appends to star `i`'s
error history the global error functional evaluated on the state reached
after stars `0..i-1` were updated in the same pass and just before star
`i`'s own update; in particular star 0's entry is the error at the start
of the pass, and later stars record values taken at later stages. -/
theorem update_S_block_error_snapshots (env : Ext) (s s' : Agis)
    (h : update_S_block env s = Except.ok s') :
    ∀ i, i < s.calc_sources.length → ∃ si : Agis,
      update_S_block_aux env s (List.range i) = Except.ok si
      ∧ (s'.calc_sources.getD i default).errors
          = (s.calc_sources.getD i default).errors ++ [error_function env si] := by
  intro i hi
  obtain ⟨rest, hsplit, hrest⟩ : ∃ rest : List ℕ,
      List.range s.calc_sources.length = List.range i ++ i :: rest
      ∧ ∀ j ∈ rest, i < j := by
    refine ⟨(List.range (s.calc_sources.length - i - 1)).map (fun k => i + Nat.succ k), ?_, ?_⟩
    · have h1 : s.calc_sources.length = i + (s.calc_sources.length - i) := by omega
      conv_lhs => rw [h1]
      rw [List.range_add]
      have h2 : s.calc_sources.length - i = (s.calc_sources.length - i - 1) + 1 := by omega
      rw [h2, List.range_succ_eq_map]
      simp [List.map_cons, Function.comp_def]
    · intro j hj
      obtain ⟨k, _, rfl⟩ := List.mem_map.mp hj
      omega
  rw [update_S_block, hsplit, update_S_block_aux_append] at h
  cases hpre : update_S_block_aux env s (List.range i) with
  | error e =>
      rw [hpre] at h
      exact Except.noConfusion h
  | ok si =>
      rw [hpre] at h
      refine ⟨si, rfl, ?_⟩
      revert h
      show (match update_S_block_step env si i with
        | Except.error e => Except.error e
        | Except.ok s2 => update_S_block_aux env s2 rest) = Except.ok s' → _
      cases hstep : update_S_block_step env si i with
      | error e => intro h; exact Except.noConfusion h
      | ok s2 =>
          intro h
          have hpre_facts := update_S_block_aux_preserves env i (List.range i) s si
            (fun j hj => by
              have := List.mem_range.mp hj
              omega) hpre
          have herr2 := update_S_block_step_errors_after env si i s2
            (by rw [hpre_facts.2]; exact hi) hstep
          have hpost := update_S_block_aux_preserves env i rest s2 s'
            (fun j hj => by
              have := hrest j hj
              omega) h
          rw [hpost.1, herr2, hpre_facts.1]

/-- Counterexample to C10's claim that different stars record different
error values within one pass: with zero residuals both stars record the
same value 0. -/
theorem update_S_block_equal_errors_counterexample :
    (update_S_block envC2 sC10).toOption.map (fun s' =>
        ((s'.calc_sources.getD 0 default).errors, (s'.calc_sources.getD 1 default).errors))
      = some ([0], [0]) := by
  with_unfolding_all decide

/-- Witness for C10's amended statement: star 1 of the concrete two-star
pass records the error evaluated after star 0's update. -/
theorem update_S_block_error_snapshots_witness :
    (update_S_block envC2 sC10 = Except.ok run_S_block_C10
      ∧ 1 < sC10.calc_sources.length)
    ∧ ∃ si : Agis,
        update_S_block_aux envC2 sC10 (List.range 1) = Except.ok si
        ∧ (run_S_block_C10.calc_sources.getD 1 default).errors
            = (sC10.calc_sources.getD 1 default).errors ++ [error_function envC2 si] :=
  ⟨⟨by with_unfolding_all rfl, by with_unfolding_all decide⟩,
    update_S_block_error_snapshots envC2 sC10 run_S_block_C10
      (by with_unfolding_all rfl) 1 (by with_unfolding_all decide)⟩

/-- A successful attitude-block update preserves the configuration
fields. -/
theorem update_A_block_config (env : Ext) (s s' : Agis)
    (h : update_A_block env s = Except.ok s') :
    s'.verbose = s.verbose ∧ s'.updating = s.updating := by
  revert h
  delta update_A_block
  cases hsolve : npSolve (compute_attitude_LHS env s) (compute_attitude_RHS env s) with
  | error e => intro h; exact Except.noConfusion h
  | ok d =>
      intro h
      cases h
      exact ⟨rfl, rfl⟩

/-- A successful configured block update preserves the configuration
fields. -/
theorem block_update_config (env : Ext) (s s2 : Agis)
    (h : block_update env s = Except.ok s2) :
    s2.verbose = s.verbose ∧ s2.updating = s.updating := by
  revert h
  delta block_update
  cases hmode : s.updating with
  | attitude =>
      intro h
      exact ⟨(update_A_block_config env s s2 h).1,
        by rw [(update_A_block_config env s s2 h).2, hmode]⟩
  | source =>
      intro h
      exact ⟨(update_S_block_aux_config env _ s s2 h).1,
        by rw [(update_S_block_aux_config env _ s s2 h).2.1, hmode]⟩
  | scannedSource =>
      intro h
      exact ⟨(update_S_block_aux_config env _ s s2 h).1,
        by rw [(update_S_block_aux_config env _ s s2 h).2.1, hmode]⟩

/-- The attitude diagnostic print contains no pass banner and no error
record. -/
theorem att_diag_events_counts (env : Ext) (a b : Agis) :
    (att_diag_events env a b).countP Event.isPass = 0
    ∧ (att_diag_events env a b).countP Event.isErrBefore = 0
    ∧ (att_diag_events env a b).countP Event.isErrAfter = 0 := by
  delta att_diag_events
  cases a.updating <;>
    simp [List.countP_cons, Event.isPass, Event.isErrBefore, Event.isErrAfter]

/-- Unfolding one successful pass of `iterate`. -/
theorem iterate_succ_ok (env : Ext) (s : Agis) (num : ℕ) (s2 : Agis)
    (h : block_update env {s with iter_counter := s.iter_counter + 1} = Except.ok s2) :
    iterate env s (num + 1)
      = ([Event.pass (s.iter_counter + 1)]
          ++ (if s.verbose then
              [Event.errBefore (error_function env {s with iter_counter := s.iter_counter + 1})]
            else [])
          ++ att_diag_events env {s with iter_counter := s.iter_counter + 1} s2
          ++ [Event.errAfter (error_function env s2)] ++ (iterate env s2 num).1,
        (iterate env s2 num).2) := by
  simp only [iterate]
  rw [h]

/-- Unfolding one failing pass of `iterate`. -/
theorem iterate_succ_err (env : Ext) (s : Agis) (num : ℕ) (e : String)
    (h : block_update env {s with iter_counter := s.iter_counter + 1} = Except.error e) :
    iterate env s (num + 1)
      = ([Event.pass (s.iter_counter + 1)]
          ++ (if s.verbose then
              [Event.errBefore (error_function env {s with iter_counter := s.iter_counter + 1})]
            else []),
        Except.error e) := by
  simp only [iterate]
  rw [h]

/-- C7 (amended): each call to `iterate` performs exactly `num` outer
passes of the single configured block update with no early stop, records
the error functional after every pass, and records it before a pass only
when verbose printing is enabled. -/
theorem iterate_pass_counts (env : Ext) :
    ∀ (num : ℕ) (s : Agis), exceptOk (iterate env s num).2 = true →
      (iterate env s num).1.countP Event.isPass = num
      ∧ (iterate env s num).1.countP Event.isErrAfter = num
      ∧ (iterate env s num).1.countP Event.isErrBefore = (if s.verbose then num else 0)
  | 0, s => fun _ => by simp [iterate]
  | num + 1, s => fun hok => by
      cases hupd : block_update env {s with iter_counter := s.iter_counter + 1} with
      | error e =>
          rw [iterate_succ_err env s num e hupd] at hok
          simp [exceptOk] at hok
      | ok s2 =>
          rw [iterate_succ_ok env s num s2 hupd] at hok ⊢
          have hok2 : exceptOk (iterate env s2 num).2 = true := by simpa using hok
          have ih := iterate_pass_counts env num s2 hok2
          have hv : s2.verbose = s.verbose :=
            (block_update_config env _ s2 hupd).1
          have hatt := att_diag_events_counts env {s with iter_counter := s.iter_counter + 1} s2
          simp only [List.countP_append, List.countP_cons, List.countP_nil, Event.isPass,
            Event.isErrBefore, Event.isErrAfter, ih.1, ih.2.1, ih.2.2, hv, hatt.1, hatt.2.1,
            hatt.2.2]
          by_cases hverb : s.verbose = true <;>
            simp [hverb, List.countP_cons, Event.isPass, Event.isErrBefore, Event.isErrAfter] <;>
            omega

/-- Counterexample to C7 as stated: a non-verbose attitude-mode run whose
single pass succeeds, yet no before-pass error is computed or recorded —
only the after-pass error is. -/
theorem iterate_no_before_error_counterexample :
    ¬((iterate envC7 sC7 1).1.countP Event.isErrBefore = 1
      ∧ (iterate envC7 sC7 1).1.countP Event.isErrAfter = 1) := by
  with_unfolding_all decide

/-- Witness for C7's amended statement: the concrete one-pass attitude-mode
run. -/
theorem iterate_pass_counts_witness :
    exceptOk (iterate envC7 sC7 1).2 = true
    ∧ (iterate envC7 sC7 1).1.countP Event.isPass = 1
    ∧ (iterate envC7 sC7 1).1.countP Event.isErrAfter = 1
    ∧ (iterate envC7 sC7 1).1.countP Event.isErrBefore = (if sC7.verbose then 1 else 0) :=
  ⟨by with_unfolding_all decide,
    (iterate_pass_counts envC7 1 sC7 (by with_unfolding_all decide)).1,
    (iterate_pass_counts envC7 1 sC7 (by with_unfolding_all decide)).2.1,
    (iterate_pass_counts envC7 1 sC7 (by with_unfolding_all decide)).2.2⟩

end GaiaLab
